import Mathlib

/-!
Verification of the one-key rhythm instrument core: a shallow embedding of
the BeatTracker transport clock, the timing evaluator, the lookahead
scheduler, the loop lifecycle map and the input debouncer, with theorems
checking the specification's claims against the embedded code.

JS numbers are modelled as exact rationals (ℚ); `Math.round` is
round-half-up (⌊x + 1/2⌋), `Math.floor` is ⌊·⌋, and the JS `%` operator on
integers is truncated remainder (`Int.tmod`).  Clock readings
(`performance.now()` / `audioCtx.currentTime`) are passed explicitly as
`now` arguments.
-/

namespace OneKey

/-- JS `Math.round`: round half up (ties toward +∞). -/
def jsRound (q : ℚ) : ℤ := ⌊q + 1/2⌋

/-- JS truncation toward zero (used by the float `%` operator). -/
def jsTrunc (q : ℚ) : ℤ := if 0 ≤ q then ⌊q⌋ else ⌈q⌉

/-- Accuracy tier returned by the timing evaluator. -/
inductive Accuracy
  | perfect
  | good
  | off
deriving DecidableEq, Repr

/-- Result record of `BeatTracker.evaluateTiming`. -/
structure TimingResult where
  accuracy : Accuracy
  nearestBeat : ℤ
  offset : ℚ
  barNumber : ℤ
deriving DecidableEq, Repr

/-- Result record of `BeatTracker.getCurrentBeatInfo`. -/
structure BeatInfo where
  beat : ℤ
  progress : ℚ
  barNumber : ℤ
  totalBeats : ℚ
deriving DecidableEq, Repr

/-- State of `BeatTracker` (BeatTracker.js).  `hasAudioCtx` tells whether
`setAudioContext` has been called; when it is true, clock readings are in
seconds (audio clock), otherwise in milliseconds (`performance.now`). -/
structure BeatTracker where
  bpm : ℚ
  beatDuration : ℚ
  startTime : Option ℚ
  isRunning : Bool
  isPaused : Bool
  pausedAt : Option ℚ
  totalPausedTime : ℚ
  barCount : ℤ
  hasAudioCtx : Bool
  perfectWindow : ℚ
  goodWindow : ℚ
deriving DecidableEq, Repr

/-- The `BeatTracker` constructor (default bpm 100). -/
def mkBeatTracker (bpm : ℚ) : BeatTracker :=
  { bpm := bpm
    beatDuration := 60000 / bpm
    startTime := none
    isRunning := false
    isPaused := false
    pausedAt := none
    totalPausedTime := 0
    barCount := 0
    hasAudioCtx := false
    perfectWindow := 50
    goodWindow := 150 }

namespace BeatTracker

/-- `setAudioContext(ctx)`. -/
def setAudioContext (st : BeatTracker) : BeatTracker :=
  { st with hasAudioCtx := true }

/-- `start()`: records the current time-base reading as origin, sets
`isRunning`, resets the bar count.  (It touches nothing else.) -/
def start (st : BeatTracker) (now : ℚ) : BeatTracker :=
  { st with startTime := some now, isRunning := true, barCount := 0 }

/-- `stop()`. -/
def stop (st : BeatTracker) : BeatTracker :=
  { st with isRunning := false, startTime := none, isPaused := false,
            pausedAt := none, totalPausedTime := 0 }

/-- `pause()`: no-op unless running and not yet paused; records `pausedAt`. -/
def pause (st : BeatTracker) (now : ℚ) : BeatTracker :=
  if st.isRunning = false ∨ st.isPaused = true then st
  else { st with isPaused := true, pausedAt := some now }

/-- `resume()`: no-op unless paused; accumulates the paused interval. -/
def resume (st : BeatTracker) (now : ℚ) : BeatTracker :=
  if st.isPaused = false then st
  else { st with totalPausedTime := st.totalPausedTime + (now - st.pausedAt.getD 0),
                 isPaused := false, pausedAt := none }

/-- Elapsed active time at clock reading `now`, in milliseconds: the audio
branch reads seconds and multiplies by 1000, the `performance.now` branch is
already in ms; when paused, the frozen `pausedAt` reading replaces `now`. -/
def elapsedAt (st : BeatTracker) (now : ℚ) : ℚ :=
  let nw := if st.isPaused then st.pausedAt.getD 0 else now
  if st.hasAudioCtx then (nw - st.startTime.getD 0 - st.totalPausedTime) * 1000
  else nw - st.startTime.getD 0 - st.totalPausedTime

/-- `getCurrentBeatInfo()` at clock reading `now`. -/
def getCurrentBeatInfo (st : BeatTracker) (now : ℚ) : BeatInfo :=
  if st.isRunning = false ∨ st.startTime = none then
    { beat := 1, progress := 0, barNumber := 0, totalBeats := 0 }
  else
    let beatDur := 60000 / st.bpm
    let totalBeats := st.elapsedAt now / beatDur
    { beat := Int.tmod ⌊totalBeats⌋ 4 + 1
      progress := totalBeats - jsTrunc totalBeats
      barNumber := ⌊totalBeats / 4⌋
      totalBeats := totalBeats }

/-- `evaluateTiming(hitTime)` evaluated when the evaluator's clock reads
`now`: the audio branch ignores `hitTime` and uses the current audio time;
the fallback branch uses `hitTime` directly. -/
def evaluateTiming (st : BeatTracker) (hitTime now : ℚ) : TimingResult :=
  if st.isRunning = false ∨ st.startTime = none then
    { accuracy := .off, nearestBeat := 1, offset := 0, barNumber := 0 }
  else
    let elapsed :=
      if st.hasAudioCtx then (now - st.startTime.getD 0 - st.totalPausedTime) * 1000
      else hitTime - st.startTime.getD 0 - st.totalPausedTime
    let beatPosition := elapsed / st.beatDuration
    let nearestBeatIndex := jsRound beatPosition
    let offset := (beatPosition - nearestBeatIndex) * st.beatDuration
    let absOffset := |offset|
    { accuracy :=
        if absOffset ≤ st.perfectWindow then .perfect
        else if absOffset ≤ st.goodWindow then .good
        else .off
      nearestBeat := Int.tmod nearestBeatIndex 4 + 1
      offset := offset
      barNumber := ⌊(nearestBeatIndex : ℚ) / 4⌋ }

/-- `setBPM(bpm)`. -/
def setBPM (st : BeatTracker) (bpm : ℚ) : BeatTracker :=
  { st with bpm := bpm, beatDuration := 60000 / bpm }

end BeatTracker

/-- Reference timing algorithm, written from the specification's words:
continuous position = elapsed / beatDuration, round-half-up index (ties to
the later beat), `nearestBeat = (roundedIndex mod 4) + 1` with mathematical
mod, signed offset `(position − roundedIndex) × beatDurationMs`,
`barNumber = floor(roundedIndex / 4)`, Perfect ≤ 50 ms < Good ≤ 150 ms < Off. -/
def specEvaluate (bpm elapsed : ℚ) : TimingResult :=
  let beatDurationMs := 60000 / bpm
  let position := elapsed / beatDurationMs
  let roundedIndex : ℤ := ⌊position + 1/2⌋
  let offset := (position - roundedIndex) * beatDurationMs
  { accuracy :=
      if |offset| ≤ 50 then .perfect
      else if |offset| ≤ 150 then .good
      else .off
    nearestBeat := roundedIndex % 4 + 1
    offset := offset
    barNumber := ⌊(roundedIndex : ℚ) / 4⌋ }

/-! ## Claim C1: the timing evaluator matches the spec's reference algorithm -/

/-- C1: for every running transport with tempo bpm > 0 (with the constructor
invariant `beatDuration = 60000 / bpm` and the default 50/150 ms windows) and
every hit whose elapsed active time is nonnegative, `evaluateTiming` returns
exactly the spec's reference algorithm `specEvaluate` applied to that elapsed
time: round-half-up beat index (ties to the later beat),
`nearestBeat = (roundedIndex mod 4) + 1`, signed offset
`(position − roundedIndex) × beatDurationMs`, `barNumber = floor(roundedIndex/4)`,
Perfect iff |offset| ≤ 50 ms, Good iff 50 < |offset| ≤ 150 ms, else Off.
In particular a hit exactly on a beat boundary gives offset 0 and Perfect, and
|offset| = 50.0001 ms classifies as Good (shown concretely at 100 bpm). -/
theorem C1_evaluateTiming_matches_reference (st : BeatTracker) (s hitTime now : ℚ)
    (hrun : st.isRunning = true) (hs : st.startTime = some s)
    (hbpm : 0 < st.bpm) (hbd : st.beatDuration = 60000 / st.bpm)
    (hpw : st.perfectWindow = 50) (hgw : st.goodWindow = 150)
    (helapsed : 0 ≤ if st.hasAudioCtx then (now - s - st.totalPausedTime) * 1000
                    else hitTime - s - st.totalPausedTime) :
    st.evaluateTiming hitTime now =
      specEvaluate st.bpm
        (if st.hasAudioCtx then (now - s - st.totalPausedTime) * 1000
         else hitTime - s - st.totalPausedTime) ∧
    (((mkBeatTracker 100).start 0).evaluateTiming 600 0).offset = 0 ∧
    (((mkBeatTracker 100).start 0).evaluateTiming 600 0).accuracy = .perfect ∧
    (((mkBeatTracker 100).start 0).evaluateTiming (500001/10000) 0).offset = 500001/10000 ∧
    (((mkBeatTracker 100).start 0).evaluateTiming (500001/10000) 0).accuracy = .good := by
  have hbd0 : (0 : ℚ) < 60000 / st.bpm := by positivity
  have hguard : ¬(st.isRunning = false ∨ st.startTime = none) := by
    simp [hrun, hs]
  set elapsed : ℚ :=
    (if st.hasAudioCtx then (now - s - st.totalPausedTime) * 1000
     else hitTime - s - st.totalPausedTime) with helapsed_def
  have hpos : 0 ≤ elapsed / (60000 / st.bpm) := div_nonneg helapsed hbd0.le
  have hidx : 0 ≤ ⌊elapsed / (60000 / st.bpm) + 1/2⌋ :=
    Int.le_floor.mpr (by push_cast; linarith)
  refine ⟨?_, ?_, ?_, ?_, ?_⟩
  · rw [BeatTracker.evaluateTiming, if_neg hguard, specEvaluate]
    simp only [hs, Option.getD_some, hbd, hpw, hgw, jsRound, ← helapsed_def]
    rw [Int.tmod_eq_emod hidx (by norm_num)]
  · norm_num [mkBeatTracker, BeatTracker.start, BeatTracker.evaluateTiming, jsRound,
      Option.some_ne_none]
  · norm_num [mkBeatTracker, BeatTracker.start, BeatTracker.evaluateTiming, jsRound,
      Option.some_ne_none]
  · norm_num [mkBeatTracker, BeatTracker.start, BeatTracker.evaluateTiming, jsRound,
      Option.some_ne_none, Int.floor_eq_zero_iff]
  · norm_num [mkBeatTracker, BeatTracker.start, BeatTracker.evaluateTiming, jsRound,
      Option.some_ne_none, Int.floor_eq_zero_iff, abs_of_nonneg]

/-- Witness for C1: a running 100-bpm tracker on the `performance.now` time
base, hit at 780 ms — elapsed 780 ms, beat position 1.3, rounded index 1,
offset +180 ms, accuracy Off (the spec's §8 concrete scenario). -/
theorem C1_witness :
    ((mkBeatTracker 100).start 0).isRunning = true ∧
    ((mkBeatTracker 100).start 0).startTime = some 0 ∧
    (0 : ℚ) < ((mkBeatTracker 100).start 0).bpm ∧
    ((mkBeatTracker 100).start 0).evaluateTiming 780 0 =
      specEvaluate ((mkBeatTracker 100).start 0).bpm
        (if ((mkBeatTracker 100).start 0).hasAudioCtx
         then (0 - 0 - ((mkBeatTracker 100).start 0).totalPausedTime) * 1000
         else 780 - 0 - ((mkBeatTracker 100).start 0).totalPausedTime) := by
  refine ⟨rfl, rfl, by norm_num [mkBeatTracker, BeatTracker.start], ?_⟩
  exact (C1_evaluateTiming_matches_reference ((mkBeatTracker 100).start 0) 0 780 0
    rfl rfl (by norm_num [mkBeatTracker, BeatTracker.start]) rfl rfl rfl
    (by norm_num [mkBeatTracker, BeatTracker.start])).1

/-! ## Claim C2: beat-in-bar range and bar-number monotonicity -/

/-- The elapsed active time is monotone in the clock reading. -/
theorem elapsedAt_mono (st : BeatTracker) {a b : ℚ} (h : a ≤ b) :
    st.elapsedAt a ≤ st.elapsedAt b := by
  unfold BeatTracker.elapsedAt
  cases hpz : st.isPaused <;> cases hac : st.hasAudioCtx <;> simp <;> linarith

/-- C2: for every tempo `bpm > 0` and every clock reading giving elapsed beat
count `B ≥ 0`, the position query computes
`beat = (floor(B) mod 4) + 1`, which always lies in {1,2,3,4}, and
`barNumber = floor(B / 4)`, which is monotone non-decreasing in the clock
reading (hence in B). -/
theorem C2_beatInfo_range_and_monotone (st : BeatTracker) (s now nowLater : ℚ)
    (hrun : st.isRunning = true) (hs : st.startTime = some s)
    (hbpm : 0 < st.bpm) (h0 : 0 ≤ st.elapsedAt now) :
    (st.getCurrentBeatInfo now).beat
        = ⌊st.elapsedAt now / (60000 / st.bpm)⌋ % 4 + 1 ∧
    1 ≤ (st.getCurrentBeatInfo now).beat ∧
    (st.getCurrentBeatInfo now).beat ≤ 4 ∧
    (st.getCurrentBeatInfo now).barNumber
        = ⌊st.elapsedAt now / (60000 / st.bpm) / 4⌋ ∧
    (now ≤ nowLater →
      (st.getCurrentBeatInfo now).barNumber
        ≤ (st.getCurrentBeatInfo nowLater).barNumber) := by
  have hbd0 : (0 : ℚ) < 60000 / st.bpm := by positivity
  have hguard : ¬(st.isRunning = false ∨ st.startTime = none) := by
    simp [hrun, hs]
  have hB : 0 ≤ st.elapsedAt now / (60000 / st.bpm) := div_nonneg h0 hbd0.le
  have hfl : 0 ≤ ⌊st.elapsedAt now / (60000 / st.bpm)⌋ := Int.le_floor.mpr (by push_cast; linarith)
  have htm : Int.tmod ⌊st.elapsedAt now / (60000 / st.bpm)⌋ 4 =
      ⌊st.elapsedAt now / (60000 / st.bpm)⌋ % 4 :=
    Int.tmod_eq_emod hfl (by norm_num)
  have hem0 : 0 ≤ ⌊st.elapsedAt now / (60000 / st.bpm)⌋ % 4 :=
    Int.emod_nonneg _ (by norm_num)
  have hem3 : ⌊st.elapsedAt now / (60000 / st.bpm)⌋ % 4 < 4 :=
    Int.emod_lt_of_pos _ (by norm_num)
  refine ⟨?_, ?_, ?_, ?_, ?_⟩
  · rw [BeatTracker.getCurrentBeatInfo, if_neg hguard]
    simpa using htm
  · rw [BeatTracker.getCurrentBeatInfo, if_neg hguard]
    simp only []
    rw [htm]; omega
  · rw [BeatTracker.getCurrentBeatInfo, if_neg hguard]
    simp only []
    rw [htm]; omega
  · rw [BeatTracker.getCurrentBeatInfo, if_neg hguard]
  · intro hle
    rw [BeatTracker.getCurrentBeatInfo, BeatTracker.getCurrentBeatInfo,
        if_neg hguard, if_neg hguard]
    simp only []
    have h1 : st.elapsedAt now / (60000 / st.bpm) ≤ st.elapsedAt nowLater / (60000 / st.bpm) :=
      (div_le_div_iff_of_pos_right hbd0).mpr (elapsedAt_mono st hle)
    exact Int.floor_le_floor (by linarith)

/-- Witness for C2: 100-bpm tracker started at 0, queried at 1500 ms and
3000 ms — 2.5 beats then 5 beats; beat 3 (in range), bar 0 then bar 1. -/
theorem C2_witness :
    ((mkBeatTracker 100).start 0).isRunning = true ∧
    ((mkBeatTracker 100).start 0).startTime = some 0 ∧
    (0 : ℚ) < ((mkBeatTracker 100).start 0).bpm ∧
    0 ≤ ((mkBeatTracker 100).start 0).elapsedAt 1500 ∧
    ((((mkBeatTracker 100).start 0).getCurrentBeatInfo 1500).beat
        = ⌊((mkBeatTracker 100).start 0).elapsedAt 1500 /
            (60000 / ((mkBeatTracker 100).start 0).bpm)⌋ % 4 + 1 ∧
      1 ≤ (((mkBeatTracker 100).start 0).getCurrentBeatInfo 1500).beat ∧
      (((mkBeatTracker 100).start 0).getCurrentBeatInfo 1500).beat ≤ 4 ∧
      (((mkBeatTracker 100).start 0).getCurrentBeatInfo 1500).barNumber
        = ⌊((mkBeatTracker 100).start 0).elapsedAt 1500 /
            (60000 / ((mkBeatTracker 100).start 0).bpm) / 4⌋ ∧
      ((1500 : ℚ) ≤ 3000 →
        (((mkBeatTracker 100).start 0).getCurrentBeatInfo 1500).barNumber
          ≤ (((mkBeatTracker 100).start 0).getCurrentBeatInfo 3000).barNumber)) := by
  refine ⟨rfl, rfl, by norm_num [mkBeatTracker, BeatTracker.start], ?_, ?_⟩
  · norm_num [mkBeatTracker, BeatTracker.start, BeatTracker.elapsedAt]
  · exact C2_beatInfo_range_and_monotone ((mkBeatTracker 100).start 0) 0 1500 3000
      rfl rfl (by norm_num [mkBeatTracker, BeatTracker.start])
      (by norm_num [mkBeatTracker, BeatTracker.start, BeatTracker.elapsedAt])

/-! ## Claim C3: pause/resume never shifts beat phase -/

/-- C3: on a running, unpaused transport, pausing at time `p` and resuming
after a wait of `d ≥ 0` leaves the origin untouched, adds exactly `d` to the
accumulated pause duration, and makes every later position query at clock
reading `t` identical to the query the never-paused transport would answer at
`t - d` (the same net elapsed active time) — resuming never shifts beat
phase.  The equality is exact in ℚ. -/
theorem C3_pause_resume_preserves_phase (st : BeatTracker) (p d t : ℚ)
    (hrun : st.isRunning = true) (hp : st.isPaused = false) (hd : 0 ≤ d) :
    ((st.pause p).resume (p + d)).startTime = st.startTime ∧
    ((st.pause p).resume (p + d)).totalPausedTime = st.totalPausedTime + d ∧
    ((st.pause p).resume (p + d)).getCurrentBeatInfo t
      = st.getCurrentBeatInfo (t - d) := by
  have hpause : st.pause p = { st with isPaused := true, pausedAt := some p } := by
    rw [BeatTracker.pause, if_neg]
    simp [hrun, hp]
  have hres : (st.pause p).resume (p + d) =
      { st with totalPausedTime := st.totalPausedTime + d,
                isPaused := false, pausedAt := none } := by
    rw [hpause, BeatTracker.resume]
    simp [BeatTracker.mk.injEq]
  refine ⟨by rw [hres], by rw [hres], ?_⟩
  rw [hres]
  have helapsed :
      BeatTracker.elapsedAt
        { st with totalPausedTime := st.totalPausedTime + d,
                  isPaused := false, pausedAt := none } t
        = st.elapsedAt (t - d) := by
    unfold BeatTracker.elapsedAt
    simp only [hp]
    cases hac : st.hasAudioCtx <;> simp <;> ring
  rw [BeatTracker.getCurrentBeatInfo, BeatTracker.getCurrentBeatInfo, helapsed]

/-- Witness for C3: 100-bpm tracker started at 0, paused at 1000, resumed at
1700; querying at 2500 equals the un-paused query at 1800. -/
theorem C3_witness :
    ((mkBeatTracker 100).start 0).isRunning = true ∧
    ((mkBeatTracker 100).start 0).isPaused = false ∧
    (0 : ℚ) ≤ 700 ∧
    (((((mkBeatTracker 100).start 0).pause 1000).resume (1000 + 700)).startTime
        = ((mkBeatTracker 100).start 0).startTime ∧
      ((((mkBeatTracker 100).start 0).pause 1000).resume (1000 + 700)).totalPausedTime
        = ((mkBeatTracker 100).start 0).totalPausedTime + 700 ∧
      ((((mkBeatTracker 100).start 0).pause 1000).resume (1000 + 700)).getCurrentBeatInfo 2500
        = ((mkBeatTracker 100).start 0).getCurrentBeatInfo (2500 - 700)) :=
  ⟨rfl, rfl, by norm_num,
    C3_pause_resume_preserves_phase ((mkBeatTracker 100).start 0) 1000 700 2500
      rfl rfl (by norm_num)⟩

/-! ## Claim C8: not-running fallback of the timing evaluator -/

/-- C8: for every hit timestamp, if the transport clock is not running (or
has no origin), `evaluateTiming` returns exactly the defined fallback
`{accuracy: Off, nearestBeat: 1, offsetMs: 0, barNumber: 0}`; being a total
function, it never raises. -/
theorem C8_evaluateTiming_not_running_fallback (st : BeatTracker) (hitTime now : ℚ)
    (h : st.isRunning = false ∨ st.startTime = none) :
    st.evaluateTiming hitTime now =
      { accuracy := .off, nearestBeat := 1, offset := 0, barNumber := 0 } := by
  rw [BeatTracker.evaluateTiming, if_pos h]

/-- Witness for C8 at the freshly constructed (not running) tracker. -/
theorem C8_witness :
    (mkBeatTracker 100).isRunning = false ∧
    (mkBeatTracker 100).evaluateTiming 123 45 =
      { accuracy := .off, nearestBeat := 1, offset := 0, barNumber := 0 } :=
  ⟨rfl, C8_evaluateTiming_not_running_fallback (mkBeatTracker 100) 123 45 (Or.inl rfl)⟩

/-! ## Claim C6: what `start()` actually does -/

/-- C6 counterexample: the claim says `start()` clears the accumulated pause
duration and pause bookkeeping.  Running the code: start at 0, pause at 10,
resume at 17 (accumulating 7 ms), pause again at 18, then `start()` at 20 —
the accumulated pause duration is still 7 and the tracker is still marked
paused, so `start()` cleared neither. -/
theorem C6_counterexample :
    ((((((mkBeatTracker 100).start 0).pause 10).resume 17).pause 18).start 20).totalPausedTime
        = 7 ∧
    ((((((mkBeatTracker 100).start 0).pause 10).resume 17).pause 18).start 20).isPaused
        = true := by
  norm_num [mkBeatTracker, BeatTracker.start, BeatTracker.pause, BeatTracker.resume]

/-- C6 (amended): `start()` sets the origin to the current time-base reading,
sets `running = true` and resets the bar count, but leaves the accumulated
pause duration and pause bookkeeping (`isPaused`, `pausedAt`) untouched;
pause state is cleared only by `stop()`. -/
theorem C6_start_sets_origin_keeps_pause (st : BeatTracker) (now : ℚ) :
    (st.start now).startTime = some now ∧
    (st.start now).isRunning = true ∧
    (st.start now).barCount = 0 ∧
    (st.start now).totalPausedTime = st.totalPausedTime ∧
    (st.start now).isPaused = st.isPaused ∧
    (st.start now).pausedAt = st.pausedAt :=
  ⟨rfl, rfl, rfl, rfl, rfl, rfl⟩

/-! ## Claim C7: invalid state transitions -/

/-- C7 counterexample: the claim says `start()` while already running leaves
the entire transport state unchanged.  But on the tracker started at time 0
(which is running), calling `start()` again at time 5 re-anchors the origin:
the resulting state differs from the old one. -/
theorem C7_counterexample :
    ((mkBeatTracker 100).start 0).isRunning = true ∧
    ((mkBeatTracker 100).start 0).start 5 ≠ (mkBeatTracker 100).start 0 := by
  norm_num [mkBeatTracker, BeatTracker.start]

/-- C7 (amended): `resume()` while not paused is a silent no-op leaving the
state unchanged, and `pause()` while not running or already paused is a
silent no-op; but `start()` while already running is not a no-op — it
re-anchors the origin to the current time-base reading and resets the bar
count (leaving pause bookkeeping untouched). -/
theorem C7_invalid_transitions (st : BeatTracker) (now : ℚ)
    (hp : st.isPaused = false) :
    st.resume now = st ∧
    (st.isRunning = false → st.pause now = st) ∧
    (st.isRunning = true →
      (st.start now).startTime = some now ∧
      (st.start now).barCount = 0 ∧
      (st.start now).isRunning = true ∧
      (st.start now).totalPausedTime = st.totalPausedTime) := by
  refine ⟨?_, ?_, ?_⟩
  · rw [BeatTracker.resume, if_pos hp]
  · intro hr
    rw [BeatTracker.pause, if_pos (Or.inl hr)]
  · exact fun _ => ⟨rfl, rfl, rfl, rfl⟩

/-- Witness for C7 at a running, unpaused tracker. -/
theorem C7_witness :
    ((mkBeatTracker 100).start 0).isPaused = false ∧
    (((mkBeatTracker 100).start 0).resume 5 = (mkBeatTracker 100).start 0 ∧
      (((mkBeatTracker 100).start 0).isRunning = false →
        ((mkBeatTracker 100).start 0).pause 5 = (mkBeatTracker 100).start 0) ∧
      (((mkBeatTracker 100).start 0).isRunning = true →
        ((((mkBeatTracker 100).start 0).start 5).startTime = some 5 ∧
         (((mkBeatTracker 100).start 0).start 5).barCount = 0 ∧
         (((mkBeatTracker 100).start 0).start 5).isRunning = true ∧
         (((mkBeatTracker 100).start 0).start 5).totalPausedTime
            = ((mkBeatTracker 100).start 0).totalPausedTime))) :=
  ⟨rfl, C7_invalid_transitions ((mkBeatTracker 100).start 0) 5 rfl⟩

/-! ## Instruments.js embedding and Claim C10 -/

/-- ADSR envelope record from Instruments.js. -/
structure Envelope where
  attack : ℚ
  decay : ℚ
  sustain : ℚ
  release : ℚ
deriving DecidableEq, Repr

/-- An instrument definition from Instruments.js. -/
structure Instrument where
  name : String
  beat : ℚ
  oscillator : String
  baseFreq : ℚ
  color : String
  shape : String
  envelope : Envelope
deriving DecidableEq, Repr

namespace Instruments

/-- `INSTRUMENTS.melody`. -/
def melody : Instrument :=
  { name := "Melody", beat := 1, oscillator := "triangle", baseFreq := 440,
    color := "#64b5f6", shape := "spiral",
    envelope := { attack := 5/100, decay := 1/10, sustain := 7/10, release := 4/10 } }

/-- `INSTRUMENTS.pad`. -/
def pad : Instrument :=
  { name := "Pad", beat := 2, oscillator := "sine", baseFreq := 330,
    color := "#ba68c8", shape := "wave",
    envelope := { attack := 1/10, decay := 3/10, sustain := 8/10, release := 6/10 } }

/-- `INSTRUMENTS.bass`. -/
def bass : Instrument :=
  { name := "Bass", beat := 3, oscillator := "sine", baseFreq := 110,
    color := "#d4a574", shape := "circle",
    envelope := { attack := 1/100, decay := 2/10, sustain := 6/10, release := 3/10 } }

/-- `INSTRUMENTS.percussion`. -/
def percussion : Instrument :=
  { name := "Perc", beat := 4, oscillator := "square", baseFreq := 880,
    color := "#ef5350", shape := "particles",
    envelope := { attack := 1/1000, decay := 1/10, sustain := 1/10, release := 1/10 } }

end Instruments

/-- `Object.values(INSTRUMENTS)` in insertion order. -/
def instrumentsList : List Instrument :=
  [Instruments.melody, Instruments.pad, Instruments.bass, Instruments.percussion]

/-- `getInstrumentByBeat(beat)`: first instrument whose `beat` equals the
argument, with `INSTRUMENTS.bass` as the `||` fallback. -/
def getInstrumentByBeat (beat : ℚ) : Instrument :=
  (instrumentsList.find? (fun i => i.beat == beat)).getD Instruments.bass

/-- C10: `getInstrumentByBeat` is total — for every rational beat value it
returns one of the four defined instruments, and whenever no instrument
carries that beat number (e.g. 0, 5, or a non-integer) it returns the bass
instrument, so `playNote` on any beat value never dereferences a missing
instrument. -/
theorem C10_getInstrumentByBeat_total (beat : ℚ) :
    getInstrumentByBeat beat ∈ instrumentsList ∧
    ((∀ i ∈ instrumentsList, i.beat ≠ beat) →
      getInstrumentByBeat beat = Instruments.bass) := by
  constructor
  · unfold getInstrumentByBeat
    cases hf : instrumentsList.find? (fun i => i.beat == beat) with
    | none =>
      simp only [Option.getD_none]
      simp [instrumentsList]
    | some i =>
      simp only [Option.getD_some]
      exact List.mem_of_find?_eq_some hf
  · intro hnone
    unfold getInstrumentByBeat
    cases hf : instrumentsList.find? (fun i => i.beat == beat) with
    | none => rfl
    | some i =>
      have hmem := List.mem_of_find?_eq_some hf
      have hbeat := List.find?_some hf
      exact absurd (by simpa using hbeat) (hnone i hmem)

/-- Witness for C10 at the out-of-range beat value 5: the fallback fires. -/
theorem C10_witness :
    getInstrumentByBeat 5 ∈ instrumentsList ∧
    getInstrumentByBeat 5 = Instruments.bass := by
  refine ⟨(C10_getInstrumentByBeat_total 5).1,
    (C10_getInstrumentByBeat_total 5).2 ?_⟩
  intro i hi
  fin_cases hi <;> norm_num [Instruments.melody, Instruments.pad,
    Instruments.bass, Instruments.percussion]

/-! ## InputHandler.js embedding and Claim C9 -/

/-- Debouncing state of `InputHandler` (InputHandler.js). -/
structure InputHandler where
  isHolding : Bool
  holdStartTime : Option ℚ
  lastTriggerTime : ℚ
  debounceMs : ℚ
deriving DecidableEq, Repr

/-- The `InputHandler` constructor: not holding, last trigger at 0,
100 ms debounce. -/
def mkInputHandler : InputHandler :=
  { isHolding := false, holdStartTime := none, lastTriggerTime := 0,
    debounceMs := 100 }

/-- `triggerNoteStart()` at clock reading `now`.  Returns the new state and
`some now` when the `onNoteStart` callback was invoked, `none` when the
input was suppressed. -/
def triggerNoteStart (h : InputHandler) (now : ℚ) : InputHandler × Option ℚ :=
  if now - h.lastTriggerTime < h.debounceMs then (h, none)
  else if h.isHolding = true then (h, none)
  else ({ isHolding := true, holdStartTime := some now, lastTriggerTime := now,
          debounceMs := h.debounceMs }, some now)

/-- `triggerNoteEnd()` at clock reading `now`.  Returns the new state and
`some (startTime, now)` when the `onNoteEnd` callback was invoked. -/
def triggerNoteEnd (h : InputHandler) (now : ℚ) : InputHandler × Option (ℚ × ℚ) :=
  if h.isHolding = false then (h, none)
  else ({ h with isHolding := false, holdStartTime := none },
        some (h.holdStartTime.getD 0, now))

/-- C9: an input arriving while a note is already active on this logical
input, or within the minimum inter-trigger interval (default 100 ms) of the
previous trigger, is suppressed: `onNoteStart` is not invoked and the
handler state (`isHolding`, `holdStartTime`, `lastTriggerTime`) is
unchanged.  Moreover `onNoteStart` never fires twice within 100 ms: if a
trigger at `n1` fired the callback, any trigger less than 100 ms later is
suppressed with the state unchanged. -/
theorem C9_debounce_suppresses (h : InputHandler) (n1 n2 : ℚ)
    (hdb : h.debounceMs = 100) :
    ((n1 - h.lastTriggerTime < h.debounceMs ∨ h.isHolding = true) →
      triggerNoteStart h n1 = (h, none)) ∧
    (∀ h1 t, triggerNoteStart h n1 = (h1, some t) →
      n2 - n1 < 100 → triggerNoteStart h1 n2 = (h1, none)) := by
  constructor
  · rintro (hlt | hhold)
    · rw [triggerNoteStart, if_pos hlt]
    · rw [triggerNoteStart]
      by_cases hlt : n1 - h.lastTriggerTime < h.debounceMs
      · rw [if_pos hlt]
      · rw [if_neg hlt, if_pos hhold]
  · intro h1 t hfire hlt
    rw [triggerNoteStart] at hfire
    by_cases hc1 : n1 - h.lastTriggerTime < h.debounceMs
    · rw [if_pos hc1] at hfire
      exact absurd (congrArg Prod.snd hfire) (by simp)
    · rw [if_neg hc1] at hfire
      by_cases hc2 : h.isHolding = true
      · rw [if_pos hc2] at hfire
        exact absurd (congrArg Prod.snd hfire) (by simp)
      · rw [if_neg hc2] at hfire
        have hh1 : h1 = (⟨true, some n1, n1, h.debounceMs⟩ : InputHandler) :=
          (congrArg Prod.fst hfire).symm
        rw [hh1, triggerNoteStart, if_pos]
        simpa [hdb] using hlt

/-- Witness for C9: the fresh handler fires at t = 200, and a second trigger
at t = 250 (50 ms later, within the 100 ms window) is suppressed with the
state unchanged. -/
theorem C9_witness :
    mkInputHandler.debounceMs = 100 ∧
    (∀ h1 t, triggerNoteStart mkInputHandler 200 = (h1, some t) →
      (250 : ℚ) - 200 < 100 → triggerNoteStart h1 250 = (h1, none)) :=
  ⟨rfl, fun h1 t hfire =>
    (C9_debounce_suppresses mkInputHandler 200 250 rfl).2 h1 t hfire⟩

/-! ## AudioEngine loop lifecycle (activeLoops map) and Claim C5 -/

/-- A channel key of the `activeLoops` map: the per-beat instrument channels
use the numeric beat value, the continuous background channel uses the
string key `'drums'`. -/
inductive Channel
  | beatKey (beat : ℚ)
  | drums
deriving DecidableEq, Repr

/-- The loop-lifecycle slice of `AudioEngine` state: the `activeLoops` map
(each live `ScheduledEventGroup` named by an id), a counter producing fresh
group ids, and the log of group ids whose constituent sound events have been
stopped. -/
structure LoopEngine where
  isInitialized : Bool
  activeLoops : Channel → Option ℕ
  nextGroupId : ℕ
  stopped : List ℕ

/-- `stopLoop(beat)`: if the channel has a live group, stop it and delete the
map entry, else do nothing. -/
def stopLoop (e : LoopEngine) (c : Channel) : LoopEngine :=
  match e.activeLoops c with
  | some g =>
      { e with activeLoops := fun c2 => if c2 = c then none else e.activeLoops c2,
               stopped := g :: e.stopped }
  | none => e

/-- Install a fresh group on channel `c` (the `activeLoops.set(key, ...)` at
the end of each `playXxxLoop`). -/
def installGroup (e : LoopEngine) (c : Channel) : LoopEngine :=
  { e with activeLoops := fun c2 => if c2 = c then some e.nextGroupId else e.activeLoops c2,
           nextGroupId := e.nextGroupId + 1 }

/-- `playNote(beat, ...)`: no-op when not initialized; otherwise
`stopLoop(beat)` first, then the switch installs the melody/pad/bass/
percussion loop under the same numeric key for beats 1–4 (and installs
nothing for any other beat value). -/
def playNote (e : LoopEngine) (beat : ℚ) : LoopEngine :=
  if e.isInitialized = false then e
  else
    let e1 := stopLoop e (.beatKey beat)
    if beat = 1 ∨ beat = 2 ∨ beat = 3 ∨ beat = 4 then installGroup e1 (.beatKey beat)
    else e1

/-- `playDrumLoop(...)`: builds the sources for one measure and overwrites
`activeLoops['drums']` with the new group — it never calls `stop` on a group
already present under that key. -/
def playDrumLoop (e : LoopEngine) : LoopEngine :=
  installGroup e .drums

/-- `stopContinuousDrums()` (the loop-map part): stop and remove the drums
group if present. -/
def stopContinuousDrums (e : LoopEngine) : LoopEngine :=
  stopLoop e .drums

/-- A concrete engine state whose drums channel holds the live group 0. -/
def engineWithLiveDrums : LoopEngine :=
  { isInitialized := true
    activeLoops := fun c => if c = .drums then some 0 else none
    nextGroupId := 1
    stopped := [] }

/-- C5 counterexample: the claim says that on *every* channel — the
background drums channel included — triggering a new group while one exists
first stops every constituent event of the prior group.  But triggering the
drums channel (`playDrumLoop`, as the lookahead scheduler does every
measure) on a state whose drums channel holds live group 0 installs group 1
and never stops group 0: the stop log stays empty. -/
theorem C5_counterexample :
    engineWithLiveDrums.activeLoops .drums = some 0 ∧
    (playDrumLoop engineWithLiveDrums).activeLoops .drums = some 1 ∧
    (playDrumLoop engineWithLiveDrums).stopped = [] := by
  refine ⟨rfl, ?_, rfl⟩
  simp [playDrumLoop, installGroup, engineWithLiveDrums]

/-- C5 (amended): for each per-beat instrument channel, at most one group is
live: `playNote` on beats 1–4 synchronously stops any prior group on that
channel (its id enters the stop log) before installing the new one, leaves
every other channel untouched, and afterwards the map holds exactly the new
group there.  The background drums channel keeps at most one *map entry* —
a new trigger overwrites the entry — but the prior group's events are not
stopped at trigger time; they are stopped only by `stopContinuousDrums`. -/
theorem C5_channel_lifecycle (e : LoopEngine) (beat : ℚ)
    (hinit : e.isInitialized = true)
    (hbeat : beat = 1 ∨ beat = 2 ∨ beat = 3 ∨ beat = 4) :
    (playNote e beat).activeLoops (.beatKey beat) = some e.nextGroupId ∧
    (∀ g, e.activeLoops (.beatKey beat) = some g → g ∈ (playNote e beat).stopped) ∧
    (∀ c, c ≠ Channel.beatKey beat → (playNote e beat).activeLoops c = e.activeLoops c) ∧
    (playDrumLoop e).activeLoops .drums = some e.nextGroupId ∧
    (playDrumLoop e).stopped = e.stopped ∧
    (∀ g, e.activeLoops .drums = some g →
      g ∈ (stopContinuousDrums e).stopped ∧
      (stopContinuousDrums e).activeLoops .drums = none) := by
  have hni : ¬e.isInitialized = false := by simp [hinit]
  refine ⟨?_, ?_, ?_, ?_, ?_, ?_⟩
  · rw [playNote, if_neg hni, if_pos hbeat]
    cases hg : e.activeLoops (.beatKey beat) with
    | some g => simp [installGroup, stopLoop, hg]
    | none => simp [installGroup, stopLoop, hg]
  · intro g hg
    rw [playNote, if_neg hni, if_pos hbeat]
    simp [installGroup, stopLoop, hg]
  · intro c hc
    rw [playNote, if_neg hni, if_pos hbeat]
    cases hg : e.activeLoops (.beatKey beat) with
    | some g => simp [installGroup, stopLoop, hg, hc]
    | none => simp [installGroup, stopLoop, hg, hc]
  · simp [playDrumLoop, installGroup]
  · simp [playDrumLoop, installGroup]
  · intro g hg
    constructor
    · simp [stopContinuousDrums, stopLoop, hg]
    · simp [stopContinuousDrums, stopLoop, hg]

/-- Witness for C5 (amended) : initialized engine with live groups, second
trigger on beat 2. -/
theorem C5_witness :
    (playNote engineWithLiveDrums 2).activeLoops (.beatKey 2)
        = some engineWithLiveDrums.nextGroupId ∧
    (playDrumLoop engineWithLiveDrums).activeLoops .drums
        = some engineWithLiveDrums.nextGroupId ∧
    (∀ g, engineWithLiveDrums.activeLoops .drums = some g →
      g ∈ (stopContinuousDrums engineWithLiveDrums).stopped ∧
      (stopContinuousDrums engineWithLiveDrums).activeLoops .drums = none) := by
  have h := C5_channel_lifecycle engineWithLiveDrums 2 rfl (by norm_num)
  exact ⟨h.1, h.2.2.2.1, h.2.2.2.2.2⟩

/-! ## AudioEngine lookahead scheduler and Claim C4 -/

/-- `scheduleAheadTime`: the lookahead horizon, 0.1 s (100 ms). -/
def scheduleAheadTime : ℚ := 1/10

/-- The `while (nextLoopTime < now + scheduleAheadTime)` loop of
`AudioEngine.scheduler`: returns the list of due times handed to
`scheduleLoop` (in emission order) and the final `nextLoopTime`, each
iteration advancing `nextLoopTime` by exactly one measure.  Termination
needs the measure to be positive, which holds since the measure is
`4 × beatDuration` and `beatDuration = 60 / bpm` with `bpm > 0`. -/
def schedulerWhile (measure limit : ℚ) (hm : 0 < measure) (next : ℚ) :
    List ℚ × ℚ :=
  if h : next < limit then
    let r := schedulerWhile measure limit hm (next + measure)
    (next :: r.1, r.2)
  else ([], next)
termination_by (⌈(limit - next) / measure⌉).toNat
decreasing_by
  have hx : 0 < (limit - next) / measure := div_pos (by linarith) hm
  have h1 : (limit - (next + measure)) / measure = (limit - next) / measure - 1 := by
    rw [show limit - (next + measure) = limit - next - measure by ring, sub_div,
        div_self hm.ne.symm]
  have h2 : ⌈(limit - next) / measure - 1⌉ = ⌈(limit - next) / measure⌉ - 1 :=
    Int.ceil_sub_one _
  have h3 : 0 < ⌈(limit - next) / measure⌉ := Int.ceil_pos.mpr hx
  rw [h1, h2]
  omega

/-- One pass of `AudioEngine.scheduler()` (the timer re-arm aside): an early
return when the drums are not playing, else the catch-up while loop over
`nextLoopTime` with the lookahead horizon, the measure being
`4 × beatDuration` at the current tempo. -/
def schedulerPass (beatDuration : ℚ) (hb : 0 < beatDuration)
    (isDrumsPlaying : Bool) (now nextLoopTime : ℚ) : List ℚ × ℚ :=
  if isDrumsPlaying = false then ([], nextLoopTime)
  else schedulerWhile (beatDuration * 4) (now + scheduleAheadTime)
    (by positivity) nextLoopTime

/-- The due times emitted by the while loop are exactly the arithmetic
progression `next + k·measure` that lies below the horizon limit. -/
theorem schedulerWhile_mem (measure limit : ℚ) (hm : 0 < measure) (next t : ℚ) :
    t ∈ (schedulerWhile measure limit hm next).1 ↔
      ∃ k : ℕ, t = next + k * measure ∧ t < limit := by
  induction next using schedulerWhile.induct measure limit hm with
  | case1 next h ih =>
    rw [schedulerWhile, dif_pos h]
    simp only [List.mem_cons]
    constructor
    · rintro (rfl | ht)
      · exact ⟨0, by simp, h⟩
      · obtain ⟨k, hk, hkl⟩ := ih.mp ht
        exact ⟨k + 1, by push_cast [hk]; ring, hkl⟩
    · rintro ⟨k, hk, hkl⟩
      cases k with
      | zero => left; simpa using hk
      | succ k =>
        right
        refine ih.mpr ⟨k, ?_, hkl⟩
        push_cast [hk]; ring
  | case2 next h =>
    rw [schedulerWhile, dif_neg h]
    simp only [List.not_mem_nil, false_iff, not_exists]
    rintro k ⟨rfl, hkl⟩
    have : (0 : ℚ) ≤ k * measure := by positivity
    have : limit ≤ next := le_of_not_lt h
    linarith

/-- The while loop emits its due times in strictly increasing order (hence
each exactly once). -/
theorem schedulerWhile_sorted (measure limit : ℚ) (hm : 0 < measure) (next : ℚ) :
    ((schedulerWhile measure limit hm next).1).Pairwise (· < ·) := by
  induction next using schedulerWhile.induct measure limit hm with
  | case1 next h ih =>
    rw [schedulerWhile, dif_pos h]
    refine List.pairwise_cons.mpr ⟨?_, ih⟩
    intro t ht
    obtain ⟨k, rfl, _⟩ := (schedulerWhile_mem measure limit hm (next + measure) t).mp ht
    have : (0 : ℚ) ≤ k * measure := by positivity
    linarith
  | case2 next h =>
    rw [schedulerWhile, dif_neg h]
    exact List.Pairwise.nil

/-- The while loop leaves `nextLoopTime` advanced by exactly one measure per
emitted due time, and not below the horizon limit. -/
theorem schedulerWhile_final (measure limit : ℚ) (hm : 0 < measure) (next : ℚ) :
    (schedulerWhile measure limit hm next).2
        = next + ((schedulerWhile measure limit hm next).1.length : ℚ) * measure ∧
    ¬ (schedulerWhile measure limit hm next).2 < limit := by
  induction next using schedulerWhile.induct measure limit hm with
  | case1 next h ih =>
    rw [schedulerWhile, dif_pos h]
    refine ⟨?_, ih.2⟩
    simp only [List.length_cons]
    rw [ih.1]
    push_cast
    ring
  | case2 next h =>
    rw [schedulerWhile, dif_neg h]
    exact ⟨by simp, h⟩

/-- C4: with the drums playing, one scheduling pass (tempo giving beat
duration `bd > 0`, clock reading `now`) emits the background-channel measure
for exactly the due times `nextLoopTime + k·(4·bd)` lying inside the
lookahead horizon `now + 100 ms`, in strictly increasing order — each due
measure exactly once, none skipped, none duplicated — advancing
`nextLoopTime` by exactly one measure per emission, finishing at or beyond
the horizon.  In particular a pass invoked late (more than one measure
overdue) catches up by emitting every overdue measure once. -/
theorem C4_scheduler_pass (bd now next : ℚ) (hb : 0 < bd) :
    (∀ t, t ∈ (schedulerPass bd hb true now next).1 ↔
      ∃ k : ℕ, t = next + k * (bd * 4) ∧ t < now + scheduleAheadTime) ∧
    ((schedulerPass bd hb true now next).1).Pairwise (· < ·) ∧
    (schedulerPass bd hb true now next).2
        = next + ((schedulerPass bd hb true now next).1.length : ℚ) * (bd * 4) ∧
    ¬ (schedulerPass bd hb true now next).2 < now + scheduleAheadTime := by
  have hpass : schedulerPass bd hb true now next
      = schedulerWhile (bd * 4) (now + scheduleAheadTime) (by positivity) next := by
    rw [schedulerPass, if_neg (by simp)]
  rw [hpass]
  exact ⟨fun t => schedulerWhile_mem _ _ _ next t,
    schedulerWhile_sorted _ _ _ next,
    (schedulerWhile_final _ _ _ next).1,
    (schedulerWhile_final _ _ _ next).2⟩

/-- Witness for C4, the catch-up scenario: 100 bpm (beat duration 0.6 s,
measure 2.4 s), `nextLoopTime = 0`, pass invoked at `now = 5` — more than
two full measures late.  The pass emits exactly the due times 0, 2.4 and 4.8
(each once, increasing) and leaves `nextLoopTime = 7.2`, beyond the horizon
5.1. -/
theorem C4_witness :
    (0 : ℚ) < 3/5 ∧
    ((2/5 : ℚ) ∈ (schedulerPass (3/5) (by norm_num) true 5 0).1 ↔
      ∃ k : ℕ, (2/5 : ℚ) = 0 + k * (3/5 * 4) ∧ (2/5 : ℚ) < 5 + scheduleAheadTime) ∧
    ((schedulerPass (3/5) (by norm_num) true 5 0).1).Pairwise (· < ·) ∧
    ¬ (schedulerPass (3/5) (by norm_num) true 5 0).2 < 5 + scheduleAheadTime := by
  have h := C4_scheduler_pass (3/5) 5 0 (by norm_num)
  exact ⟨by norm_num, h.1 (2/5), h.2.1, h.2.2.2⟩

end OneKey
